import Mathlib

/-
Verification of the chatsapp server core (src/app.rs, src/room.rs) against its
specification.  The persisted room store (redis) is modelled as an association
list from keys to score-ordered member sets; connectivity of each store or
channel round trip is supplied by an explicit oracle, so every code path of the
source (success and failure) is reachable in the model.
-/

/-! ## Persisted room store model (redis sorted sets) -/

/-- One redis sorted set: members paired with their scores. -/
abbrev Hist := List (String × Int)

/-- Score of a member in a sorted set. -/
def Hist.score : Hist → String → Option Int
  | [], _ => none
  | (m, sc) :: rest, member => if m = member then some sc else Hist.score rest member

/-- The `zadd` semantics on one sorted set: add the member with the score, updating
the score when the member is already present. -/
def Hist.upsert : Hist → String → Int → Hist
  | [], member, score => [(member, score)]
  | (m, sc) :: rest, member, score =>
    if m = member then (m, score) :: rest
    else (m, sc) :: Hist.upsert rest member score

/-- The whole store: keys mapped to sorted sets. -/
abbrev Store := List (String × Hist)

/-- Value of a key in the store. -/
def Store.find : Store → String → Option Hist
  | [], _ => none
  | (k, s) :: rest, key => if k = key then some s else Store.find rest key

/-- Redis `EXISTS key`, as checked by `room::new`. -/
def Store.existsKey (st : Store) (key : String) : Bool :=
  (st.find key).isSome

/-- Redis `ZADD key member score`: creates the key when absent. -/
def Store.zadd : Store → String → String → Int → Store
  | [], key, member, score => [(key, [(member, score)])]
  | (k, s) :: rest, key, member, score =>
    if k = key then (k, s.upsert member score) :: rest
    else (k, s) :: Store.zadd rest key member score

/-- Score of a member under a key. -/
def Store.score (st : Store) (key member : String) : Option Int :=
  match st.find key with
  | none => none
  | some s => s.score member

/-- The redis key pattern `room*` used by `room::list`: keys beginning with
`room`. -/
def matchesRoomPat (k : String) : Bool :=
  "room".data.isPrefixOf k.data

/-- Redis `KEYS room*`: every key of the store matching the room pattern. -/
def Store.roomKeys (st : Store) : List String :=
  (st.map Prod.fst).filter matchesRoomPat

/-! ## room.rs -/

/-- The `RoomEvent` from room.rs. -/
inductive RoomEvent
  | chat (message : String)
  | join
  | leave
deriving DecidableEq

/-- The `RoomError` from room.rs. -/
inductive RoomError
  | failedToConnect
  | failedToSend
  | failedToFetch
  | failedToCheckRoomExists
  | roomNameTaken
deriving DecidableEq

/-- The `Display` implementation of `RoomError`. -/
def RoomError.toText : RoomError → String
  | .failedToConnect => "Error: Failed to connect\n"
  | .failedToSend => "Error: Failed to send\n"
  | .failedToFetch => "Error: Failed to fetch\n"
  | .failedToCheckRoomExists => "Error: Failed to check if room exists\n"
  | .roomNameTaken => "Error: Room name taken\n"

/-- The `gen_key` from room.rs: `format!("room:{}", name)`. -/
def Room.gen_key (name : String) : String := "room:" ++ name

/-- The `gen_chat` from room.rs: `format!("{}: {}", username, message)`. -/
def Room.gen_chat (username message : String) : String := username ++ ": " ++ message

/-- The `gen_join_msg` from room.rs. -/
def Room.gen_join_msg (username : String) : String := username ++ " has joined the room"

/-- The `gen_leave_msg` from room.rs. -/
def Room.gen_leave_msg (username : String) : String := username ++ " has left the room"

/-- The member text `room::event` writes for an event, per its `match` arms. -/
def Room.eventText (ev : RoomEvent) (username : String) : String :=
  match ev with
  | .chat m => Room.gen_chat username m
  | .join => Room.gen_join_msg username
  | .leave => Room.gen_leave_msg username

/-- Connectivity oracle for one `room::new` call: whether `get_async_connection`,
the `exists` round trip and the `zadd` round trip succeed. -/
structure NewOracle where
  connectOk : Bool
  existsOk : Bool
  zaddOk : Bool
deriving DecidableEq

/-- Connectivity oracle for one `room::event` call. -/
structure EventOracle where
  connectOk : Bool
  zaddOk : Bool
deriving DecidableEq

/-- Connectivity oracle for one `room::list` call. -/
structure ListOracle where
  connectOk : Bool
  keysOk : Bool
deriving DecidableEq

def NewOracle.allOk : NewOracle := ⟨true, true, true⟩
def EventOracle.allOk : EventOracle := ⟨true, true⟩
def ListOracle.allOk : ListOracle := ⟨true, true⟩

/-- The `room::new`: connect, check `EXISTS room:<name>`, fail with `RoomNameTaken`
when present, otherwise `ZADD` the sentinel `"Start of chat"` at score 0.
Returns the result together with the store after the call. -/
def Room.new (o : NewOracle) (st : Store) (room : String) :
    Except RoomError Unit × Store :=
  if ¬ o.connectOk then (Except.error RoomError.failedToConnect, st)
  else if ¬ o.existsOk then (Except.error RoomError.failedToCheckRoomExists, st)
  else if st.existsKey (Room.gen_key room) then (Except.error RoomError.roomNameTaken, st)
  else if ¬ o.zaddOk then (Except.error RoomError.failedToSend, st)
  else (Except.ok (), st.zadd (Room.gen_key room) "Start of chat" 0)

/-- The `room::event`: connect, then `ZADD` the rendered text scored by the
millisecond timestamp (`get_time_in_ms` is modelled by the explicit `nowMs`
argument).  NOTE the declared success payload is the unit value, exactly as in
the source (`Result<(), RoomError>`). -/
def Room.event (o : EventOracle) (st : Store) (ev : RoomEvent) (room username : String)
    (nowMs : Int) : Except RoomError Unit × Store :=
  if ¬ o.connectOk then (Except.error RoomError.failedToConnect, st)
  else if ¬ o.zaddOk then (Except.error RoomError.failedToSend, st)
  else (Except.ok (), st.zadd (Room.gen_key room) (Room.eventText ev username) nowMs)

/-- The `room::list`: connect, then `KEYS room*`. -/
def Room.list (o : ListOracle) (st : Store) : Except RoomError (List String) :=
  if ¬ o.connectOk then Except.error RoomError.failedToConnect
  else if ¬ o.keysOk then Except.error RoomError.failedToFetch
  else Except.ok st.roomKeys

/-- Modelled from the spec: `room::recent_msgs` is called from `App::join_room`
but its definition is not among the provided source files; the spec gives
`recent_events(room) -> ordered sequence of rendered strings`, with a
store-connectivity failure surfacing as a distinct error kind. -/
def Room.recent_msgs (fetchOk : Bool) (st : Store) (room : String) :
    Except RoomError (List String) :=
  if fetchOk then Except.ok (((st.find (Room.gen_key room)).getD []).map Prod.fst)
  else Except.error RoomError.failedToFetch

/-! ## app.rs -/

/-- The `BrokerEvent` as constructed by the calling code in app.rs (broker.rs is not
among the provided source files).  The `msg` field holds exactly the value the
caller passes: the success payload of `room::event`, whose type is unit.  The
shared write handle carried by `JoinRoom` is identified here by the channel of
the session that sends it, which is irrelevant to every claim. -/
inductive BrokerEvent
  | joinRoom (user : String) (msg : Unit)
  | message (user : String) (msg : Unit)
  | leaveRoom (user : String) (msg : Unit)
deriving DecidableEq

/-- The `RoomMap` (broker registry): room name mapped to the broker channel,
identified by a number. -/
abbrev RoomMap := List (String × Nat)

/-- Registry lookup (`room_map.get(room)` after the read lock). -/
def lookupCh : RoomMap → String → Option Nat
  | [], _ => none
  | (r, ch) :: rest, room => if r = room then some ch else lookupCh rest room

/-- Modelled from the spec: `broker::spawn_broker` is called from `App::run` but
broker.rs is not among the provided source files; per the spec the registry
insertion is guarded so that there is at most one broker per room name, so the
spawn is an insert-if-absent.  Returns the new registry and whether a broker
task was actually spawned. -/
def spawnBroker (rm : RoomMap) (room : String) : RoomMap × Bool :=
  match lookupCh rm room with
  | some _ => (rm, false)
  | none => ((room, rm.length) :: rm, true)

/-- Every observable side effect of one command other than the store mutation
(which is threaded as state): a line written back to the issuing session, an
event sent on a broker channel, or the spawn of a broker task. -/
inductive Effect
  | reply (text : String)
  | brokerSend (ch : Nat) (ev : BrokerEvent)
  | spawned (room : String)
deriving DecidableEq

/-- Text of `write_not_in_room`. -/
def notInRoomText : String := "You\x27re not currently in a room.\n"

/-- Text of `write_room_not_found`. -/
def roomNotFoundText : String := "Room not found\n"

/-- Text of `write_set_username`. -/
def setUsernameText : String := "You need to pick a username before joining a room\n"

/-- Text of `write_invalid`. -/
def invalidText : String :=
  "Invalid command.\nEnter \x22>help\x22 for a list of commands and their usage.\n"

/-- Text of `write_help`. -/
def helpText : String :=
  "Commands:\n>help              - Display commands\n>exit              - Close connection\n>list              - List rooms\n>me                - Your user info\n>set-username name - Set username\n>create-room room  - Create room\n>join-room room    - Join room\n"

/-- Display text of a failed `tokio::sync::mpsc` send, written by `write_error`
when a broker send fails (the channel library is outside the sources; tokio
renders its send error as below).  No claim depends on this text. -/
def sendErrText : String := "channel closed"

/-- Rust debug rendering of the optional username, used by `write_user_info`. -/
def usernameDebugText : Option String → String
  | none => "None"
  | some s => "Some(\x22" ++ s ++ "\x22)"

/-- The `write_list`: concatenates the items, appending a newline after each one
only when `new_line` is set. -/
def writeListText (l : List String) (newLine : Bool) : String :=
  String.join (l.map (fun s => if newLine then s ++ "\n" else s))

/-- The `User` from app.rs. -/
structure User where
  addr : String
  username : Option String
deriving DecidableEq

/-- The `State` from app.rs: the session's membership state. -/
inductive SessionState
  | inside (room : String) (ch : Nat)
  | outside
deriving DecidableEq

/-- The `App` from app.rs (the redis client handle is threaded separately as the
`Store` state). -/
structure App where
  user : User
  state : SessionState
deriving DecidableEq

/-- The `App::new`: empty username, `Outside`. -/
def App.new (addr : String) : App :=
  ⟨⟨addr, none⟩, SessionState.outside⟩

/-- The `Command` from command.rs, as consumed by `App::run` (the text parser is out
of scope). -/
inductive Command
  | help
  | list
  | me
  | setUsername (name : String)
  | createRoom (room : String)
  | joinRoom (room : String)
  | message (msg : String)
  | leave
  | invalid
  | exit
deriving DecidableEq

/-- Outcome oracle for every fallible call one command can make: the store
round trips of the primary `room::event` / `room::new` / `room::list` call, the
leave-leg `room::event` of a join issued from `Inside`, the broker channel
sends, the history fetch, and the wall-clock timestamps taken by
`get_time_in_ms`. -/
structure Oracle where
  newO : NewOracle
  listO : ListOracle
  leaveEv : EventOracle
  ev : EventOracle
  leaveSendOk : Bool
  sendOk : Bool
  fetchOk : Bool
  nowMs : Int
  leaveNowMs : Int
deriving DecidableEq

def Oracle.allOk : Oracle :=
  ⟨NewOracle.allOk, ListOracle.allOk, EventOracle.allOk, EventOracle.allOk,
    true, true, true, 0, 0⟩

/-- The `App::join_room`.  `none` models the panic of the `unwrap` on the username;
the inner option is the returned broker channel (`Option<Sender<BrokerEvent>>`).
Order of operations as in the source: registry lookup, `room::event(Join)`,
broker send of `JoinRoom`, then the recent-history fetch whose failure still
returns the channel. -/
def App.join_room (o : Oracle) (a : App) (st : Store) (rm : RoomMap) (room : String) :
    Option (Option Nat × Store × List Effect) :=
  match a.user.username with
  | none => none
  | some user =>
    match lookupCh rm room with
    | none => some (none, st, [Effect.reply roomNotFoundText])
    | some ch =>
      let r := Room.event o.ev st RoomEvent.join room user o.nowMs
      match r.fst with
      | Except.error e => some (none, r.snd, [Effect.reply e.toText])
      | Except.ok u =>
        if o.sendOk then
          match Room.recent_msgs o.fetchOk r.snd room with
          | Except.error e =>
            some (some ch, r.snd,
              [Effect.brokerSend ch (BrokerEvent.joinRoom user u), Effect.reply e.toText])
          | Except.ok msgs =>
            some (some ch, r.snd,
              [Effect.brokerSend ch (BrokerEvent.joinRoom user u),
               Effect.reply (writeListText msgs false)])
        else some (none, r.snd, [Effect.reply sendErrText])

/-- The `App::leave_room`: persist the Leave event, then send `LeaveRoom` on the
broker channel; either failure is only reported to the caller. -/
def App.leave_room (evo : EventOracle) (sendOk : Bool) (nowMs : Int) (a : App)
    (st : Store) (room : String) (ch : Nat) : Option (Store × List Effect) :=
  match a.user.username with
  | none => none
  | some user =>
    let r := Room.event evo st RoomEvent.leave room user nowMs
    match r.fst with
    | Except.error e => some (r.snd, [Effect.reply e.toText])
    | Except.ok u =>
      if sendOk then some (r.snd, [Effect.brokerSend ch (BrokerEvent.leaveRoom user u)])
      else some (r.snd, [Effect.reply sendErrText])

/-- The `App::send_message`: persist the Chat event, then send `Message` on the
broker channel. -/
def App.send_message (o : Oracle) (a : App) (st : Store) (room : String) (ch : Nat)
    (msg : String) : Option (Store × List Effect) :=
  match a.user.username with
  | none => none
  | some user =>
    let r := Room.event o.ev st (RoomEvent.chat msg) room user o.nowMs
    match r.fst with
    | Except.error e => some (r.snd, [Effect.reply e.toText])
    | Except.ok u =>
      if o.sendOk then some (r.snd, [Effect.brokerSend ch (BrokerEvent.message user u)])
      else some (r.snd, [Effect.reply sendErrText])

/-- The `App::handle_join`: from `Inside` first run the leave sequence for the old
room, then the join sequence; the state becomes `Inside(new_room, tx)` exactly
when `join_room` returned a channel, and is otherwise left as it was. -/
def App.handle_join (o : Oracle) (a : App) (st : Store) (rm : RoomMap)
    (new_room : String) : Option (App × Store × List Effect) :=
  match a.state with
  | SessionState.inside room ch =>
    match App.leave_room o.leaveEv o.leaveSendOk o.leaveNowMs a st room ch with
    | none => none
    | some (st1, effs1) =>
      match App.join_room o a st1 rm new_room with
      | none => none
      | some (some tx, st2, effs2) =>
        some (⟨a.user, SessionState.inside new_room tx⟩, st2, effs1 ++ effs2)
      | some (none, st2, effs2) => some (a, st2, effs1 ++ effs2)
  | SessionState.outside =>
    match App.join_room o a st rm new_room with
    | none => none
    | some (some tx, st2, effs2) =>
      some (⟨a.user, SessionState.inside new_room tx⟩, st2, effs2)
    | some (none, st2, effs2) => some (a, st2, effs2)

/-- One iteration of the command loop in `App::run`: dispatch of one parsed
command, returning the session, store, registry and the effects of the
iteration; `none` models a panic. -/
def step (o : Oracle) (a : App) (st : Store) (rm : RoomMap) (c : Command) :
    Option (App × Store × RoomMap × List Effect) :=
  match c with
  | Command.help => some (a, st, rm, [Effect.reply helpText])
  | Command.list =>
    match Room.list o.listO st with
    | Except.ok l => some (a, st, rm, [Effect.reply (writeListText l true)])
    | Except.error e => some (a, st, rm, [Effect.reply e.toText])
  | Command.me =>
    some (a, st, rm,
      [Effect.reply ("Username: " ++ usernameDebugText a.user.username ++ ", IP: "
        ++ a.user.addr ++ "\n")])
  | Command.setUsername name =>
    some (⟨⟨a.user.addr, some name⟩, a.state⟩, st, rm, [])
  | Command.createRoom room =>
    let r := Room.new o.newO st room
    let errEffs :=
      match r.fst with
      | Except.error e => [Effect.reply e.toText]
      | Except.ok _ => []
    let sp := spawnBroker rm room
    some (a, r.snd, sp.fst, errEffs ++ (if sp.snd then [Effect.spawned room] else []))
  | Command.joinRoom room =>
    match a.user.username with
    | none => some (a, st, rm, [Effect.reply setUsernameText])
    | some _ =>
      match App.handle_join o a st rm room with
      | none => none
      | some (a2, st2, effs) => some (a2, st2, rm, effs)
  | Command.message msg =>
    match a.state with
    | SessionState.inside room ch =>
      match App.send_message o a st room ch msg with
      | none => none
      | some (st2, effs) => some (a, st2, rm, effs)
    | SessionState.outside => some (a, st, rm, [Effect.reply notInRoomText])
  | Command.leave =>
    match a.state with
    | SessionState.inside room ch =>
      match App.leave_room o.ev o.sendOk o.nowMs a st room ch with
      | none => none
      | some (st2, effs) => some (⟨a.user, SessionState.outside⟩, st2, rm, effs)
    | SessionState.outside => some (a, st, rm, [Effect.reply notInRoomText])
  | Command.invalid => some (a, st, rm, [Effect.reply invalidText])
  | Command.exit => some (a, st, rm, [])

/-- A whole session run: the command loop folded over a list of commands, each
with the oracle of its iteration.  `none` models a panic in some iteration. -/
def run (a : App) (st : Store) (rm : RoomMap) :
    List (Command × Oracle) → Option (App × Store × RoomMap)
  | [] => some (a, st, rm)
  | (c, o) :: rest =>
    match step o a st rm c with
    | none => none
    | some (a2, st2, rm2, _) => run a2 st2 rm2 rest

/-- The username invariant of claim C10: a session that is `Inside` a room has
its username set. -/
def userInv (a : App) : Bool :=
  match a.state with
  | SessionState.outside => true
  | SessionState.inside _ _ => a.user.username.isSome

/-! ## Store lemmas -/

theorem Hist.score_upsert_self (l : Hist) (m : String) (s : Int) :
    (l.upsert m s).score m = some s := by
  induction l with
  | nil => simp [Hist.upsert, Hist.score]
  | cons hd tl ih =>
    obtain ⟨m1, s1⟩ := hd
    by_cases h : m1 = m
    · simp [Hist.upsert, Hist.score, h]
    · simp [Hist.upsert, Hist.score, h, ih]

theorem Hist.score_upsert_ne (l : Hist) (m m2 : String) (s : Int) (h : m2 ≠ m) :
    (l.upsert m s).score m2 = l.score m2 := by
  have h' : ¬ (m = m2) := fun hh => h hh.symm
  induction l with
  | nil => simp [Hist.upsert, Hist.score, h']
  | cons hd tl ih =>
    obtain ⟨m1, s1⟩ := hd
    by_cases h1 : m1 = m
    · subst h1
      simp [Hist.upsert, Hist.score, h']
    · simp only [Hist.upsert, h1, if_false]
      by_cases h2 : m1 = m2 <;> simp [Hist.score, h2, ih]

theorem Store.find_zadd_self (st : Store) (k m : String) (s : Int) :
    (st.zadd k m s).find k = some (((st.find k).getD []).upsert m s) := by
  induction st with
  | nil => simp [Store.zadd, Store.find, Hist.upsert]
  | cons hd tl ih =>
    obtain ⟨k1, h1⟩ := hd
    by_cases h : k1 = k
    · simp [Store.zadd, Store.find, h]
    · simp [Store.zadd, Store.find, h, ih]

theorem Store.find_zadd_ne (st : Store) (k k2 m : String) (s : Int) (h : k2 ≠ k) :
    (st.zadd k m s).find k2 = st.find k2 := by
  have h' : ¬ (k = k2) := fun hh => h hh.symm
  induction st with
  | nil => simp [Store.zadd, Store.find, h']
  | cons hd tl ih =>
    obtain ⟨k1, h1⟩ := hd
    by_cases h1k : k1 = k
    · subst h1k
      simp [Store.zadd, Store.find, h']
    · simp only [Store.zadd, h1k, if_false]
      by_cases h2 : k1 = k2 <;> simp [Store.find, h2, ih]

theorem Store.score_zadd_self (st : Store) (k m : String) (s : Int) :
    (st.zadd k m s).score k m = some s := by
  simp [Store.score, Store.find_zadd_self, Hist.score_upsert_self]

theorem Store.score_zadd_ne (st : Store) (k k2 m m2 : String) (s : Int)
    (h : k2 ≠ k ∨ m2 ≠ m) : (st.zadd k m s).score k2 m2 = st.score k2 m2 := by
  by_cases hk : k2 = k
  · subst hk
    rcases h with h | h
    · exact absurd rfl h
    · have h' : ¬ (m = m2) := fun hh => h hh.symm
      simp only [Store.score, Store.find_zadd_self]
      rcases hf : st.find k2 with _ | l
      · simp [Hist.upsert, Hist.score, h']
      · simp [Hist.score_upsert_ne _ _ _ _ h]
  · simp [Store.score, Store.find_zadd_ne _ _ _ _ _ hk]

theorem Store.mem_map_fst_of_find_isSome (st : Store) (k : String)
    (h : (st.find k).isSome = true) : k ∈ st.map Prod.fst := by
  induction st with
  | nil => simp [Store.find] at h
  | cons hd tl ih =>
    obtain ⟨k1, h1⟩ := hd
    by_cases hk : k1 = k
    · simp [hk]
    · simp only [Store.find, hk, if_false] at h
      simp [ih h]

theorem matchesRoomPat_gen_key (name : String) :
    matchesRoomPat (Room.gen_key name) = true := by
  have h : (Room.gen_key name).data = 'r' :: 'o' :: 'o' :: 'm' :: ':' :: name.data := by
    show ("room:" ++ name).data = _
    rw [String.data_append]
    rfl
  have h2 : "room".data = ['r', 'o', 'o', 'm'] := rfl
  simp [matchesRoomPat, h, h2, List.isPrefixOf]

theorem gen_key_mem_roomKeys (st : Store) (name : String)
    (h : Store.existsKey st (Room.gen_key name) = true) :
    Room.gen_key name ∈ Store.roomKeys st := by
  refine List.mem_filter.mpr ⟨?_, matchesRoomPat_gen_key name⟩
  exact Store.mem_map_fst_of_find_isSome st _ h

/-! ## room.rs call lemmas -/

theorem Room.event_connect_false (o : EventOracle) (st : Store) (ev : RoomEvent)
    (room u : String) (ts : Int) (h : o.connectOk = false) :
    Room.event o st ev room u ts = (Except.error RoomError.failedToConnect, st) := by
  simp [Room.event, h]

theorem Room.event_zadd_false (o : EventOracle) (st : Store) (ev : RoomEvent)
    (room u : String) (ts : Int) (hc : o.connectOk = true) (h : o.zaddOk = false) :
    Room.event o st ev room u ts = (Except.error RoomError.failedToSend, st) := by
  simp [Room.event, hc, h]

theorem Room.event_ok (o : EventOracle) (st : Store) (ev : RoomEvent)
    (room u : String) (ts : Int) (hc : o.connectOk = true) (hz : o.zaddOk = true) :
    Room.event o st ev room u ts =
      (Except.ok (), st.zadd (Room.gen_key room) (Room.eventText ev u) ts) := by
  simp [Room.event, hc, hz]

/-- Claim C6: `create_room` fails with `RoomNameTaken` exactly when the key of
the room already exists in the store (given that the store round trips
themselves succeed); on that failure the whole store — in particular the
room's history — is unchanged, and when the name is fresh the call inserts the
sentinel entry `"Start of chat"` at order-key 0 under the room's key. -/
theorem claim_C6_create_room_name_taken (o : NewOracle) (st : Store) (room : String)
    (hc : o.connectOk = true) (he : o.existsOk = true) (hz : o.zaddOk = true) :
    ((Room.new o st room).fst = Except.error RoomError.roomNameTaken
        ↔ Store.existsKey st (Room.gen_key room) = true)
    ∧ ((Room.new o st room).fst = Except.error RoomError.roomNameTaken
        → (Room.new o st room).snd = st)
    ∧ (Store.existsKey st (Room.gen_key room) = false
        → Room.new o st room
            = (Except.ok (), st.zadd (Room.gen_key room) "Start of chat" 0)
          ∧ Store.score (Room.new o st room).snd (Room.gen_key room) "Start of chat"
            = some 0) := by
  by_cases hk : Store.existsKey st (Room.gen_key room) = true
  · simp [Room.new, hc, he, hz, hk]
  · simp only [Bool.not_eq_true] at hk
    simp [Room.new, hc, he, hz, hk, Store.score_zadd_self]

/-- Witness for C6 at a concrete store holding room `r`. -/
theorem claim_C6_witness :
    NewOracle.allOk.connectOk = true ∧ NewOracle.allOk.existsOk = true
    ∧ NewOracle.allOk.zaddOk = true
    ∧ ((Room.new NewOracle.allOk [("room:r", [("Start of chat", 0)])] "r").fst
          = Except.error RoomError.roomNameTaken
        ↔ Store.existsKey [("room:r", [("Start of chat", 0)])] (Room.gen_key "r") = true) :=
  ⟨rfl, rfl, rfl,
    (claim_C6_create_room_name_taken NewOracle.allOk
      [("room:r", [("Start of chat", 0)])] "r" rfl rfl rfl).1⟩

/-- Claim C7: `append_event` (`room::event`) inserts exactly one ordered entry:
the rendered text — `"<username>: <text>"` for chat, `"<username> has joined
the room"` for join, `"<username> has left the room"` for leave — scored by the
event's millisecond timestamp; the score of every other (key, member) pair of
the store is untouched. -/
theorem claim_C7_append_event_renders_and_scores (o : EventOracle) (st : Store)
    (room u : String) (ts : Int) (hc : o.connectOk = true) (hz : o.zaddOk = true) :
    (∀ m, Room.event o st (RoomEvent.chat m) room u ts
        = (Except.ok (), st.zadd (Room.gen_key room) (u ++ ": " ++ m) ts))
    ∧ (Room.event o st RoomEvent.join room u ts
        = (Except.ok (), st.zadd (Room.gen_key room) (u ++ " has joined the room") ts))
    ∧ (Room.event o st RoomEvent.leave room u ts
        = (Except.ok (), st.zadd (Room.gen_key room) (u ++ " has left the room") ts))
    ∧ (∀ ev, Store.score (Room.event o st ev room u ts).snd
          (Room.gen_key room) (Room.eventText ev u) = some ts)
    ∧ (∀ ev k m2, k ≠ Room.gen_key room ∨ m2 ≠ Room.eventText ev u
        → Store.score (Room.event o st ev room u ts).snd k m2 = Store.score st k m2) := by
  refine ⟨?_, ?_, ?_, ?_, ?_⟩
  · intro m
    simp [Room.event_ok o st _ room u ts hc hz, Room.eventText, Room.gen_chat]
  · simp [Room.event_ok o st _ room u ts hc hz, Room.eventText, Room.gen_join_msg]
  · simp [Room.event_ok o st _ room u ts hc hz, Room.eventText, Room.gen_leave_msg]
  · intro ev
    simp [Room.event_ok o st ev room u ts hc hz, Store.score_zadd_self]
  · intro ev k m2 h
    simp [Room.event_ok o st ev room u ts hc hz, Store.score_zadd_ne _ _ _ _ _ _ h]

/-- Witness for C7 at a concrete store, user and timestamp. -/
theorem claim_C7_witness :
    EventOracle.allOk.connectOk = true ∧ EventOracle.allOk.zaddOk = true
    ∧ (∀ m, Room.event EventOracle.allOk [] (RoomEvent.chat m) "r" "bob" 7
        = (Except.ok (), Store.zadd [] (Room.gen_key "r") ("bob" ++ ": " ++ m) 7)) :=
  ⟨rfl, rfl,
    (claim_C7_append_event_renders_and_scores EventOracle.allOk [] "r" "bob" 7 rfl rfl).1⟩

/-! ## app.rs call lemmas -/

theorem join_room_found (o : Oracle) (a : App) (st : Store) (rm : RoomMap)
    (room u : String) (ch : Nat) (hu : a.user.username = some u)
    (hl : lookupCh rm room = some ch) :
    ∃ st2 effs, App.join_room o a st rm room
        = some ((if o.ev.connectOk && o.ev.zaddOk && o.sendOk then some ch else none),
            st2, effs)
      ∧ (Effect.brokerSend ch (BrokerEvent.joinRoom u ()) ∈ effs
          ↔ (o.ev.connectOk && o.ev.zaddOk && o.sendOk) = true) := by
  cases hc : o.ev.connectOk <;> cases hz : o.ev.zaddOk <;> cases hs : o.sendOk <;>
    cases hf : o.fetchOk <;>
      simp [App.join_room, hu, hl, Room.event, Room.recent_msgs, hc, hz, hs, hf] <;>
        exact ⟨_, _, ⟨rfl, rfl⟩, by simp⟩

theorem leave_room_spec (evo : EventOracle) (so : Bool) (now : Int) (a : App)
    (st : Store) (room : String) (ch : Nat) (u : String)
    (hu : a.user.username = some u) :
    ∃ st2 effs, App.leave_room evo so now a st room ch = some (st2, effs)
      ∧ ∀ c v, Effect.brokerSend c (BrokerEvent.joinRoom v ()) ∉ effs := by
  cases hc : evo.connectOk <;> cases hz : evo.zaddOk <;> cases hs : so <;>
    simp [App.leave_room, hu, Room.event, hc, hz] <;>
      exact ⟨_, _, ⟨rfl, rfl⟩, by simp⟩

theorem handle_join_found (o : Oracle) (a : App) (st : Store) (rm : RoomMap)
    (room u : String) (ch : Nat) (hu : a.user.username = some u)
    (hl : lookupCh rm room = some ch) :
    ∃ a2 st2 effs, App.handle_join o a st rm room = some (a2, st2, effs)
      ∧ a2.user = a.user
      ∧ a2.state = (if o.ev.connectOk && o.ev.zaddOk && o.sendOk
          then SessionState.inside room ch else a.state)
      ∧ (Effect.brokerSend ch (BrokerEvent.joinRoom u ()) ∈ effs
          ↔ (o.ev.connectOk && o.ev.zaddOk && o.sendOk) = true) := by
  cases ha : a.state with
  | outside =>
    obtain ⟨st2, effs, hj, hmem⟩ := join_room_found o a st rm room u ch hu hl
    cases hcond : (o.ev.connectOk && o.ev.zaddOk && o.sendOk) with
    | true =>
      rw [hcond] at hj hmem
      simp only [if_true] at hj
      exact ⟨⟨a.user, SessionState.inside room ch⟩, st2, effs,
        by simp [App.handle_join, ha, hj], rfl, by simp [hcond], hmem⟩
    | false =>
      rw [hcond] at hj hmem
      simp only [Bool.false_eq_true, if_false] at hj
      exact ⟨a, st2, effs, by simp [App.handle_join, ha, hj], rfl,
        by simp [hcond, ha], hmem⟩
  | inside oldRoom oldCh =>
    obtain ⟨st1, effs1, hlv, hnm⟩ :=
      leave_room_spec o.leaveEv o.leaveSendOk o.leaveNowMs a st oldRoom oldCh u hu
    obtain ⟨st2, effs2, hj, hmem⟩ := join_room_found o a st1 rm room u ch hu hl
    cases hcond : (o.ev.connectOk && o.ev.zaddOk && o.sendOk) with
    | true =>
      rw [hcond] at hj hmem
      simp only [if_true] at hj
      refine ⟨⟨a.user, SessionState.inside room ch⟩, st2, effs1 ++ effs2,
        by simp [App.handle_join, ha, hlv, hj], rfl, by simp [hcond], ?_⟩
      simp only [List.mem_append]
      exact iff_of_true (Or.inr (hmem.mpr rfl)) (by trivial)
    | false =>
      rw [hcond] at hj hmem
      simp only [Bool.false_eq_true, if_false] at hj
      refine ⟨a, st2, effs1 ++ effs2,
        by simp [App.handle_join, ha, hlv, hj], rfl, by simp [hcond, ha], ?_⟩
      simp only [List.mem_append]
      refine iff_of_false ?_ (by simp)
      rintro (h1 | h2)
      · exact hnm ch u h1
      · exact (by simpa using hmem : _ ∉ effs2) h2

/-- Claim C1: for a join-room command on a room that is present in the registry
(issued by a session whose username is set, the only way to reach
`App::join_room`), the session's state after the command is
`Inside(room, channel)` exactly when the `Joined` broadcast event was accepted
by the room's broker channel — equivalently, exactly when the `Join`
persistence round trips and the broker send all succeeded; any earlier failure
leaves the state as it was, while a failure of the recent-history fetch, which
happens after the broker send, does not prevent the transition. -/
theorem claim_C1_join_transition_iff_broker_send (o : Oracle) (a : App) (st : Store)
    (rm : RoomMap) (room u : String) (ch : Nat) (hu : a.user.username = some u)
    (hl : lookupCh rm room = some ch) :
    ∃ a2 st2 effs, step o a st rm (Command.joinRoom room) = some (a2, st2, rm, effs)
      ∧ (Effect.brokerSend ch (BrokerEvent.joinRoom u ()) ∈ effs
          ↔ (o.ev.connectOk && o.ev.zaddOk && o.sendOk) = true)
      ∧ a2.state = (if o.ev.connectOk && o.ev.zaddOk && o.sendOk
          then SessionState.inside room ch else a.state) := by
  obtain ⟨a2, st2, effs, hh, _, hstate, hmem⟩ := handle_join_found o a st rm room u ch hu hl
  exact ⟨a2, st2, effs, by simp [step, hu, hh], hmem, hstate⟩

/-- Witness for C1: a session with a username joins existing room `r`; with a
failing history fetch the broker send still succeeds and the session ends up
`Inside`. -/
theorem claim_C1_witness :
    ((⟨⟨"a", some "bob"⟩, SessionState.outside⟩ : App).user.username = some "bob")
    ∧ lookupCh [("r", 3)] "r" = some 3
    ∧ (∃ a2 st2 effs,
        step ⟨NewOracle.allOk, ListOracle.allOk, EventOracle.allOk, EventOracle.allOk,
            true, true, false, 0, 0⟩
          ⟨⟨"a", some "bob"⟩, SessionState.outside⟩ [] [("r", 3)]
          (Command.joinRoom "r") = some (a2, st2, [("r", 3)], effs)
        ∧ (Effect.brokerSend 3 (BrokerEvent.joinRoom "bob" ()) ∈ effs
            ↔ (true && true && true) = true)
        ∧ a2.state = (if true && true && true
            then SessionState.inside "r" 3
            else (⟨⟨"a", some "bob"⟩, SessionState.outside⟩ : App).state)) :=
  ⟨rfl, rfl,
    claim_C1_join_transition_iff_broker_send
      ⟨NewOracle.allOk, ListOracle.allOk, EventOracle.allOk, EventOracle.allOk,
        true, true, false, 0, 0⟩
      ⟨⟨"a", some "bob"⟩, SessionState.outside⟩ [] [("r", 3)] "r" "bob" 3 rfl rfl⟩

theorem handle_join_notFound (o : Oracle) (a : App) (st : Store) (rm : RoomMap)
    (room u : String) (hu : a.user.username = some u)
    (hl : lookupCh rm room = none) :
    ∃ st2 effs, App.handle_join o a st rm room = some (a, st2, effs)
      ∧ Effect.reply roomNotFoundText ∈ effs := by
  cases ha : a.state with
  | outside =>
    refine ⟨st, [Effect.reply roomNotFoundText], ?_, by simp⟩
    simp [App.handle_join, ha, App.join_room, hu, hl]
  | inside oldRoom oldCh =>
    obtain ⟨st1, effs1, hlv, _⟩ :=
      leave_room_spec o.leaveEv o.leaveSendOk o.leaveNowMs a st oldRoom oldCh u hu
    refine ⟨st1, effs1 ++ [Effect.reply roomNotFoundText], ?_, by simp⟩
    simp [App.handle_join, ha, hlv, App.join_room, hu, hl]

/-- Claim C2 (amended): a join-room command naming a room absent from the
registry returns the whole session unchanged — `Outside` stays `Outside`,
`Inside(x)` stays `Inside(x)` with the same channel — and, provided the
session's username is set, the reply is the `Room not found` line.  A session
whose username is not yet set is instead answered with the pick-a-username
line (so the claim's unrestricted `returns RoomNotFound` does not hold for
such sessions; see the counterexample). -/
theorem claim_C2_join_room_not_found (o : Oracle) (a : App) (st : Store)
    (rm : RoomMap) (room : String) (hl : lookupCh rm room = none) :
    ∃ st2 effs, step o a st rm (Command.joinRoom room) = some (a, st2, rm, effs)
      ∧ (a.user.username = none → st2 = st ∧ effs = [Effect.reply setUsernameText])
      ∧ (∀ u, a.user.username = some u → Effect.reply roomNotFoundText ∈ effs) := by
  cases hu : a.user.username with
  | none =>
    refine ⟨st, [Effect.reply setUsernameText], by simp [step, hu], ?_, ?_⟩
    · intro _
      exact ⟨rfl, rfl⟩
    · intro u h
      exact Option.noConfusion h
  | some u =>
    obtain ⟨st2, effs, hh, hmem⟩ := handle_join_notFound o a st rm room u hu hl
    refine ⟨st2, effs, by simp [step, hu, hh], ?_, ?_⟩
    · intro h
      exact Option.noConfusion h
    · intro v _
      exact hmem

/-- Witness for C2: a session that is `Inside("old")` with a username joins a
room absent from the registry; the session — including its `Inside("old", 7)`
state — is returned unchanged and the `Room not found` reply is written. -/
theorem claim_C2_witness :
    lookupCh [("old", 7)] "r" = none
    ∧ (∃ st2 effs,
        step Oracle.allOk (⟨⟨"a", some "bob"⟩, SessionState.inside "old" 7⟩ : App)
            [] [("old", 7)] (Command.joinRoom "r")
          = some (⟨⟨"a", some "bob"⟩, SessionState.inside "old" 7⟩, st2, [("old", 7)], effs)
        ∧ ((⟨⟨"a", some "bob"⟩, SessionState.inside "old" 7⟩ : App).user.username = none
            → st2 = [] ∧ effs = [Effect.reply setUsernameText])
        ∧ (∀ u, (⟨⟨"a", some "bob"⟩, SessionState.inside "old" 7⟩ : App).user.username
              = some u → Effect.reply roomNotFoundText ∈ effs)) :=
  ⟨rfl, claim_C2_join_room_not_found Oracle.allOk
    ⟨⟨"a", some "bob"⟩, SessionState.inside "old" 7⟩ [] [("old", 7)] "r" rfl⟩

/-- Counterexample to C2 as stated: a fresh session (username not yet set) that
issues `join-room r` on a never-created room is answered with the
pick-a-username line, not with `Room not found`; so not every session receives
`RoomNotFound` for such a command (its membership is still unchanged). -/
theorem claim_C2_counterexample :
    step Oracle.allOk (App.new "1.2.3.4:5") [] [] (Command.joinRoom "r")
      = some (App.new "1.2.3.4:5", [], [], [Effect.reply setUsernameText])
    ∧ setUsernameText ≠ roomNotFoundText := by
  constructor
  · rfl
  · decide

/-- Claim C8: a message command issued by a session in `Outside` produces
exactly one effect — the `not currently in a room` reply written to that
session's own stream — so there is no store write (the store is returned
unchanged), no broker send of any kind, and the session (state `Outside`
included) is unchanged. -/
theorem claim_C8_message_outside (o : Oracle) (a : App) (st : Store) (rm : RoomMap)
    (msg : String) (h : a.state = SessionState.outside) :
    step o a st rm (Command.message msg) = some (a, st, rm, [Effect.reply notInRoomText])
    ∧ (∀ ch ev, Effect.brokerSend ch ev ∉ [Effect.reply notInRoomText]) := by
  refine ⟨by simp [step, h], ?_⟩
  intro ch ev
  simp

/-- Witness for C8 with a fresh session and a nonempty store and registry. -/
theorem claim_C8_witness :
    (App.new "9.9.9.9:1").state = SessionState.outside
    ∧ step Oracle.allOk (App.new "9.9.9.9:1") [("room:r", [("Start of chat", 0)])]
        [("r", 0)] (Command.message "hi")
      = some (App.new "9.9.9.9:1", [("room:r", [("Start of chat", 0)])], [("r", 0)],
          [Effect.reply notInRoomText]) :=
  ⟨rfl, (claim_C8_message_outside Oracle.allOk (App.new "9.9.9.9:1")
    [("room:r", [("Start of chat", 0)])] [("r", 0)] "hi" rfl).1⟩

/-- Claim C9: a list command changes neither the session nor the store nor the
registry; its reply renders exactly `room::list`'s answer, which is the set of
keys of the store's room index (the keys matching the `room*` pattern), and
that index has one entry per created room: the key `room:<name>` written by
`create_room` matches the pattern, and every room key present in the store
appears in the answer. -/
theorem claim_C9_list_returns_room_index (o : Oracle) (a : App) (st : Store)
    (rm : RoomMap) (hc : o.listO.connectOk = true) (hk : o.listO.keysOk = true) :
    step o a st rm Command.list
      = some (a, st, rm, [Effect.reply (writeListText st.roomKeys true)])
    ∧ Room.list o.listO st = Except.ok st.roomKeys
    ∧ (∀ name, matchesRoomPat (Room.gen_key name) = true)
    ∧ (∀ name, Store.existsKey st (Room.gen_key name) = true
        → Room.gen_key name ∈ st.roomKeys) := by
  have hlist : Room.list o.listO st = Except.ok st.roomKeys := by
    simp [Room.list, hc, hk]
  exact ⟨by simp [step, hlist], hlist,
    fun name => matchesRoomPat_gen_key name,
    fun name h => gen_key_mem_roomKeys st name h⟩

/-- Witness for C9 on a store holding the room `r1`. -/
theorem claim_C9_witness :
    ListOracle.allOk.connectOk = true ∧ ListOracle.allOk.keysOk = true
    ∧ step Oracle.allOk (App.new "a") [("room:r1", [("Start of chat", 0)])] []
        Command.list
      = some (App.new "a", [("room:r1", [("Start of chat", 0)])], [],
          [Effect.reply (writeListText (Store.roomKeys
            [("room:r1", [("Start of chat", 0)])]) true)]) :=
  ⟨rfl, rfl, (claim_C9_list_returns_room_index Oracle.allOk (App.new "a")
    [("room:r1", [("Start of chat", 0)])] [] rfl rfl).1⟩

theorem Room.new_error_snd (o : NewOracle) (st : Store) (room : String) (e : RoomError)
    (h : (Room.new o st room).fst = Except.error e) : (Room.new o st room).snd = st := by
  unfold Room.new at h ⊢
  split_ifs at h ⊢ <;> simp_all

/-- Claim C4 (amended): `create-room` attempts the persisted-store creation
first, and a creation failure (name taken, store unreachable) is reported to
the caller only — the session, its membership included, is returned unchanged,
the store is unchanged and nothing is sent to any broker — but the broker
spawn is NOT conditional on the creation succeeding: `spawn_broker` is invoked
afterwards regardless, so when the room has no live broker in the registry one
is spawned and registered even though the creation failed. -/
theorem claim_C4_create_room_spawns_despite_failure (o : Oracle) (a : App) (st : Store)
    (rm : RoomMap) (room : String) (e : RoomError)
    (h1 : (Room.new o.newO st room).fst = Except.error e)
    (h2 : lookupCh rm room = none) :
    step o a st rm (Command.createRoom room)
      = some (a, st, (room, rm.length) :: rm,
          [Effect.reply e.toText, Effect.spawned room]) := by
  have hsnd := Room.new_error_snd o.newO st room e h1
  simp [step, spawnBroker, h2, h1, hsnd]

/-- Witness for C4 (amended): store unreachable, empty registry. -/
theorem claim_C4_witness :
    ((Room.new (⟨false, true, true⟩ : NewOracle) [] "lobby").fst
        = Except.error RoomError.failedToConnect)
    ∧ lookupCh [] "lobby" = none
    ∧ step ⟨⟨false, true, true⟩, ListOracle.allOk, EventOracle.allOk, EventOracle.allOk,
          true, true, true, 0, 0⟩ (App.new "a") [] [] (Command.createRoom "lobby")
      = some (App.new "a", [], [("lobby", 0)],
          [Effect.reply RoomError.failedToConnect.toText, Effect.spawned "lobby"]) :=
  ⟨rfl, rfl,
    claim_C4_create_room_spawns_despite_failure
      ⟨⟨false, true, true⟩, ListOracle.allOk, EventOracle.allOk, EventOracle.allOk,
        true, true, true, 0, 0⟩ (App.new "a") [] [] "lobby"
      RoomError.failedToConnect rfl rfl⟩

/-- Counterexample to C4 as stated: with the store unreachable the creation of
room `r` fails — yet `App::run` still calls `spawn_broker` and a broker for
`r` is spawned and registered (registry goes from empty to holding `r`, and
the spawn effect is emitted), contradicting that a failed creation spawns no
broker. -/
theorem claim_C4_counterexample :
    (Room.new (⟨false, true, true⟩ : NewOracle) [] "r").fst
        = Except.error RoomError.failedToConnect
    ∧ step ⟨⟨false, true, true⟩, ListOracle.allOk, EventOracle.allOk, EventOracle.allOk,
          true, true, true, 0, 0⟩ (App.new "a") [] [] (Command.createRoom "r")
      = some (App.new "a", [], [("r", 0)],
          [Effect.reply RoomError.failedToConnect.toText, Effect.spawned "r"]) :=
  ⟨rfl, rfl⟩

theorem send_message_some (o : Oracle) (a : App) (st : Store) (room : String)
    (ch : Nat) (msg u : String) (hu : a.user.username = some u) :
    ∃ st2 effs, App.send_message o a st room ch msg = some (st2, effs) := by
  cases hc : o.ev.connectOk <;> cases hz : o.ev.zaddOk <;> cases hs : o.sendOk <;>
    simp [App.send_message, hu, Room.event, hc, hz, hs]

theorem send_message_none (o : Oracle) (a : App) (st : Store) (room : String)
    (ch : Nat) (msg : String) (hu : a.user.username = none) :
    App.send_message o a st room ch msg = none := by
  simp [App.send_message, hu]

theorem leave_room_none (evo : EventOracle) (so : Bool) (now : Int) (a : App)
    (st : Store) (room : String) (ch : Nat) (hu : a.user.username = none) :
    App.leave_room evo so now a st room ch = none := by
  simp [App.leave_room, hu]

theorem handle_join_none (o : Oracle) (a : App) (st : Store) (rm : RoomMap)
    (room : String) (hu : a.user.username = none) :
    App.handle_join o a st rm room = none := by
  cases ha : a.state with
  | outside => simp [App.handle_join, ha, App.join_room, hu]
  | inside oldRoom oldCh =>
    simp [App.handle_join, ha,
      leave_room_none o.leaveEv o.leaveSendOk o.leaveNowMs a st oldRoom oldCh hu]

theorem step_user_eq (o : Oracle) (a : App) (st : Store) (rm : RoomMap) (c : Command)
    (a2 : App) (st2 : Store) (rm2 : RoomMap) (effs : List Effect)
    (h : step o a st rm c = some (a2, st2, rm2, effs)) :
    a2.user = a.user
    ∨ (∃ n, c = Command.setUsername n ∧ a2.user = ⟨a.user.addr, some n⟩) := by
  cases c with
  | help =>
    simp only [step, Option.some.injEq, Prod.mk.injEq] at h
    exact Or.inl (by rw [← h.1])
  | list =>
    cases hl : Room.list o.listO st with
    | ok l =>
      simp only [step, hl, Option.some.injEq, Prod.mk.injEq] at h
      exact Or.inl (by rw [← h.1])
    | error e =>
      simp only [step, hl, Option.some.injEq, Prod.mk.injEq] at h
      exact Or.inl (by rw [← h.1])
  | me =>
    simp only [step, Option.some.injEq, Prod.mk.injEq] at h
    exact Or.inl (by rw [← h.1])
  | setUsername n =>
    simp only [step, Option.some.injEq, Prod.mk.injEq] at h
    exact Or.inr ⟨n, rfl, by rw [← h.1]⟩
  | createRoom room =>
    simp only [step, Option.some.injEq, Prod.mk.injEq] at h
    exact Or.inl (by rw [← h.1])
  | joinRoom room =>
    cases hu : a.user.username with
    | none =>
      simp only [step, hu, Option.some.injEq, Prod.mk.injEq] at h
      exact Or.inl (by rw [← h.1])
    | some u =>
      cases hl : lookupCh rm room with
      | none =>
        obtain ⟨st3, effs3, hh, _⟩ := handle_join_notFound o a st rm room u hu hl
        have hst : step o a st rm (Command.joinRoom room) = some (a, st3, rm, effs3) := by
          simp [step, hu, hh]
        rw [hst] at h
        simp only [Option.some.injEq, Prod.mk.injEq] at h
        exact Or.inl (by rw [← h.1])
      | some ch =>
        obtain ⟨a3, st3, effs3, hh, huser, _, _⟩ := handle_join_found o a st rm room u ch hu hl
        have hst : step o a st rm (Command.joinRoom room) = some (a3, st3, rm, effs3) := by
          simp [step, hu, hh]
        rw [hst] at h
        simp only [Option.some.injEq, Prod.mk.injEq] at h
        rw [← h.1]
        exact Or.inl huser
  | message msg =>
    cases ha : a.state with
    | outside =>
      simp only [step, ha, Option.some.injEq, Prod.mk.injEq] at h
      exact Or.inl (by rw [← h.1])
    | inside r c2 =>
      cases hu : a.user.username with
      | none =>
        rw [show step o a st rm (Command.message msg) = none by
          simp [step, ha, send_message_none o a st r c2 msg hu]] at h
        exact Option.noConfusion h
      | some u =>
        obtain ⟨st3, effs3, hsm⟩ := send_message_some o a st r c2 msg u hu
        have hst : step o a st rm (Command.message msg) = some (a, st3, rm, effs3) := by
          simp [step, ha, hsm]
        rw [hst] at h
        simp only [Option.some.injEq, Prod.mk.injEq] at h
        exact Or.inl (by rw [← h.1])
  | leave =>
    cases ha : a.state with
    | outside =>
      simp only [step, ha, Option.some.injEq, Prod.mk.injEq] at h
      exact Or.inl (by rw [← h.1])
    | inside r c2 =>
      cases hu : a.user.username with
      | none =>
        rw [show step o a st rm Command.leave = none by
          simp [step, ha, leave_room_none o.ev o.sendOk o.nowMs a st r c2 hu]] at h
        exact Option.noConfusion h
      | some u =>
        obtain ⟨st3, effs3, hlv, _⟩ := leave_room_spec o.ev o.sendOk o.nowMs a st r c2 u hu
        have hst : step o a st rm Command.leave
            = some (⟨a.user, SessionState.outside⟩, st3, rm, effs3) := by
          simp [step, ha, hlv]
        rw [hst] at h
        simp only [Option.some.injEq, Prod.mk.injEq] at h
        exact Or.inl (by rw [← h.1])
  | invalid =>
    simp only [step, Option.some.injEq, Prod.mk.injEq] at h
    exact Or.inl (by rw [← h.1])
  | exit =>
    simp only [step, Option.some.injEq, Prod.mk.injEq] at h
    exact Or.inl (by rw [← h.1])

/-- Claim C5 (amended): the username of a session is modified by no command
other than set-username — it is in particular never cleared: whenever it holds
`Some(name)`, after any further command it still holds some value, and any
command other than set-username leaves it untouched.  A second set-username,
however, does replace it with the new name (idempotent-overwrite, as the
spec's transition table states), so the claim's `set at most once / no second
set-username changes it to a different value` does not hold; see the
counterexample. -/
theorem claim_C5_username_never_cleared (o : Oracle) (a : App) (st : Store)
    (rm : RoomMap) (c : Command) (a2 : App) (st2 : Store) (rm2 : RoomMap)
    (effs : List Effect) (h : step o a st rm c = some (a2, st2, rm2, effs)) :
    (∀ v, a.user.username = some v → ∃ w, a2.user.username = some w)
    ∧ ((∀ n, c ≠ Command.setUsername n) → a2.user.username = a.user.username) := by
  rcases step_user_eq o a st rm c a2 st2 rm2 effs h with heq | ⟨n, hc, heq⟩
  · exact ⟨fun v hv => ⟨v, by rw [heq, hv]⟩, fun _ => by rw [heq]⟩
  · constructor
    · intro v _
      exact ⟨n, by rw [heq]⟩
    · intro hno
      exact absurd hc (hno n)

/-- Witness for C5 at a help command issued by a named session. -/
theorem claim_C5_witness :
    step Oracle.allOk (⟨⟨"a", some "alice"⟩, SessionState.outside⟩ : App) [] []
        Command.help
      = some (⟨⟨"a", some "alice"⟩, SessionState.outside⟩, [], [],
          [Effect.reply helpText])
    ∧ ((∀ v, (⟨⟨"a", some "alice"⟩, SessionState.outside⟩ : App).user.username = some v
          → ∃ w, (⟨⟨"a", some "alice"⟩, SessionState.outside⟩ : App).user.username = some w)
        ∧ ((∀ n, Command.help ≠ Command.setUsername n)
          → (⟨⟨"a", some "alice"⟩, SessionState.outside⟩ : App).user.username
            = (⟨⟨"a", some "alice"⟩, SessionState.outside⟩ : App).user.username)) :=
  ⟨rfl, claim_C5_username_never_cleared Oracle.allOk
    ⟨⟨"a", some "alice"⟩, SessionState.outside⟩ [] [] Command.help
    ⟨⟨"a", some "alice"⟩, SessionState.outside⟩ [] [] [Effect.reply helpText] rfl⟩

/-- Counterexample to C5 as stated: a second set-username command does change
the username to a different value — after `set-username alice` then
`set-username bob` the session's username is `bob`, not `alice` — so the
username is not `set at most once` in the sense that a later call cannot
replace the earlier value. -/
theorem claim_C5_counterexample :
    run (App.new "a") [] []
        [(Command.setUsername "alice", Oracle.allOk), (Command.setUsername "bob", Oracle.allOk)]
      = some (⟨⟨"a", some "bob"⟩, SessionState.outside⟩, [], [])
    ∧ (some "bob" : Option String) ≠ some "alice" := by
  constructor
  · rfl
  · decide

theorem userInv_isSome (a : App) (h : a.user.username.isSome = true) :
    userInv a = true := by
  unfold userInv
  cases a.state <;> simp [h]

theorem step_total_inv (o : Oracle) (a : App) (st : Store) (rm : RoomMap) (c : Command)
    (hinv : userInv a = true) :
    ∃ a2 st2 rm2 effs, step o a st rm c = some (a2, st2, rm2, effs)
      ∧ userInv a2 = true := by
  cases c with
  | help => exact ⟨a, st, rm, _, rfl, hinv⟩
  | list =>
    cases hl : Room.list o.listO st with
    | ok l => exact ⟨a, st, rm, [Effect.reply (writeListText l true)], by simp [step, hl], hinv⟩
    | error e => exact ⟨a, st, rm, [Effect.reply e.toText], by simp [step, hl], hinv⟩
  | me => exact ⟨a, st, rm, _, rfl, hinv⟩
  | setUsername n =>
    exact ⟨⟨⟨a.user.addr, some n⟩, a.state⟩, st, rm, [], rfl,
      userInv_isSome _ rfl⟩
  | createRoom room => exact ⟨a, _, _, _, rfl, hinv⟩
  | joinRoom room =>
    cases hu : a.user.username with
    | none => exact ⟨a, st, rm, [Effect.reply setUsernameText], by simp [step, hu], hinv⟩
    | some u =>
      cases hl : lookupCh rm room with
      | none =>
        obtain ⟨st3, effs3, hh, _⟩ := handle_join_notFound o a st rm room u hu hl
        exact ⟨a, st3, rm, effs3, by simp [step, hu, hh], hinv⟩
      | some ch =>
        obtain ⟨a3, st3, effs3, hh, huser, _, _⟩ := handle_join_found o a st rm room u ch hu hl
        refine ⟨a3, st3, rm, effs3, by simp [step, hu, hh], ?_⟩
        refine userInv_isSome a3 ?_
        rw [huser, hu]
        rfl
  | message msg =>
    cases ha : a.state with
    | outside => exact ⟨a, st, rm, [Effect.reply notInRoomText], by simp [step, ha], hinv⟩
    | inside r c2 =>
      simp only [userInv, ha] at hinv
      obtain ⟨u, hu⟩ := Option.isSome_iff_exists.mp hinv
      obtain ⟨st3, effs3, hsm⟩ := send_message_some o a st r c2 msg u hu
      exact ⟨a, st3, rm, effs3, by simp [step, ha, hsm],
        userInv_isSome a (by rw [hu]; rfl)⟩
  | leave =>
    cases ha : a.state with
    | outside => exact ⟨a, st, rm, [Effect.reply notInRoomText], by simp [step, ha], hinv⟩
    | inside r c2 =>
      simp only [userInv, ha] at hinv
      obtain ⟨u, hu⟩ := Option.isSome_iff_exists.mp hinv
      obtain ⟨st3, effs3, hlv, _⟩ := leave_room_spec o.ev o.sendOk o.nowMs a st r c2 u hu
      exact ⟨⟨a.user, SessionState.outside⟩, st3, rm, effs3,
        by simp [step, ha, hlv], rfl⟩
  | invalid => exact ⟨a, st, rm, _, rfl, hinv⟩
  | exit => exact ⟨a, st, rm, _, rfl, hinv⟩

theorem run_total_inv (cs : List (Command × Oracle)) (a : App) (st : Store)
    (rm : RoomMap) (hinv : userInv a = true) :
    ∃ a2 st2 rm2, run a st rm cs = some (a2, st2, rm2) ∧ userInv a2 = true := by
  induction cs generalizing a st rm with
  | nil => exact ⟨a, st, rm, rfl, hinv⟩
  | cons p rest ih =>
    obtain ⟨c, o⟩ := p
    obtain ⟨a2, st2, rm2, effs, hstep, hinv2⟩ := step_total_inv o a st rm c hinv
    obtain ⟨a3, st3, rm3, hrun, hinv3⟩ := ih a2 st2 rm2 hinv2
    exact ⟨a3, st3, rm3, by simp [run, hstep, hrun], hinv3⟩

/-- Claim C10: from a freshly accepted connection, every sequence of commands
runs without panicking — the `unwrap` of the username in `send_message`,
`join_room` and `leave_room` (modelled as the `none` outcome of `run`) is
never reached, because the username-presence invariant holds throughout:
whenever the resulting session is `Inside` a room, its username is set (the
join path turns away any join attempt made while the username is `None`
before the `unwrap`). -/
theorem claim_C10_inside_implies_username (addr : String) (st : Store) (rm : RoomMap)
    (cs : List (Command × Oracle)) :
    ∃ a2 st2 rm2, run (App.new addr) st rm cs = some (a2, st2, rm2)
      ∧ ∀ r ch, a2.state = SessionState.inside r ch
          → a2.user.username.isSome = true := by
  obtain ⟨a2, st2, rm2, hrun, hinv⟩ := run_total_inv cs (App.new addr) st rm rfl
  refine ⟨a2, st2, rm2, hrun, ?_⟩
  intro r ch hstate
  simpa [userInv, hstate] using hinv

/-- Witness for C10 on a concrete command sequence that sets a username, joins
a room and sends a message. -/
theorem claim_C10_witness :
    ∃ a2 st2 rm2,
      run (App.new "7.7.7.7:2") [("room:r", [("Start of chat", 0)])] [("r", 4)]
          [(Command.setUsername "eve", Oracle.allOk), (Command.joinRoom "r", Oracle.allOk),
           (Command.message "hello", Oracle.allOk)]
        = some (a2, st2, rm2)
      ∧ ∀ r ch, a2.state = SessionState.inside r ch
          → a2.user.username.isSome = true :=
  claim_C10_inside_implies_username "7.7.7.7:2" [("room:r", [("Start of chat", 0)])]
    [("r", 4)]
    [(Command.setUsername "eve", Oracle.allOk), (Command.joinRoom "r", Oracle.allOk),
     (Command.message "hello", Oracle.allOk)]

/-- Claim C3, evaluated at the failing input (code bug): `room::event` is
declared `Result<(), RoomError>`, so its success payload is the unit value,
and `App::send_message` forwards exactly that payload as the `msg` of the
broadcast event.  Consequently two chat commands whose persisted texts differ
(`alice: hi` vs `alice: bye` are written to the store) send the *identical*
broadcast event `Message { user: "alice", msg: () }` to the broker: the
broadcast cannot carry the persisted rendered text, contradicting the
format-once / persist-that-text / broadcast-that-text contract. -/
theorem claim_C3_broadcast_carries_no_payload :
    (Room.event EventOracle.allOk [("room:r", [("Start of chat", 0)])]
        (RoomEvent.chat "hi") "r" "alice" 0).fst = Except.ok ()
    ∧ step Oracle.allOk (⟨⟨"a", some "alice"⟩, SessionState.inside "r" 0⟩ : App)
        [("room:r", [("Start of chat", 0)])] [("r", 0)] (Command.message "hi")
      = some (⟨⟨"a", some "alice"⟩, SessionState.inside "r" 0⟩,
          [("room:r", [("Start of chat", 0), ("alice: hi", 0)])], [("r", 0)],
          [Effect.brokerSend 0 (BrokerEvent.message "alice" ())])
    ∧ step Oracle.allOk (⟨⟨"a", some "alice"⟩, SessionState.inside "r" 0⟩ : App)
        [("room:r", [("Start of chat", 0)])] [("r", 0)] (Command.message "bye")
      = some (⟨⟨"a", some "alice"⟩, SessionState.inside "r" 0⟩,
          [("room:r", [("Start of chat", 0), ("alice: bye", 0)])], [("r", 0)],
          [Effect.brokerSend 0 (BrokerEvent.message "alice" ())])
    ∧ Room.gen_chat "alice" "hi" ≠ Room.gen_chat "alice" "bye" := by
  refine ⟨rfl, rfl, rfl, ?_⟩
  decide
